/-
  Verification of ClippingPlaneCollection
  (src/Source/Scene/ClippingPlaneCollection.js).

  Shallow embedding: the collection's mutable state is a record `CState`;
  plane objects live in a heap (`List PlaneObj`) addressed by reference so
  that JS object identity and aliasing are modelled faithfully.  JS numbers
  that can become NaN or Infinity in the modelled code paths (texture
  height, pixel capacity) are modelled by `JSNum`; plane coordinates enter
  the claims only through value equality and are modelled by `Int`.
  The external collaborators excluded by the spec (octahedral normal
  encoding, float byte packing, the GPU texture's upload methods) are
  modelled from the spec: the two encoders are universally quantified
  function parameters, the texture is a width/height/pixel-grid record.
-/
import Mathlib

set_option maxHeartbeats 1000000

namespace Cesium

/-- Numeric values carried by planes (normal components, distance).  The
claims about this program use these values only through value equality
(`Plane.equals`) and by copying them into buffers, so they are modelled by
an integer type with decidable equality. -/
abbrev Num := Int

/-- A JS number restricted to the values that arise in the modelled code
paths: a nonnegative integer, `NaN` (from `0 / 0`), or `Infinity` (from
`n / 0` with `n > 0`). -/
inductive JSNum where
  | nat (n : Nat)
  | nan
  | inf
  deriving DecidableEq, Repr

/-- JS `Math.ceil (n / w)` on nonnegative integers: division by zero gives
`NaN` for `0 / 0` and `Infinity` otherwise; for `w ≥ 1` the result is the
integer ceiling. -/
def jsDivCeil (n w : Nat) : JSNum :=
  if w = 0 then (if n = 0 then .nan else .inf) else .nat ((n + w - 1) / w)

/-- JS `Math.max (x, 1)`: `Math.max (NaN, 1) = NaN`, `Math.max (Infinity, 1) = Infinity`. -/
def jsMax1 : JSNum → JSNum
  | .nat n => .nat (max n 1)
  | .nan => .nan
  | .inf => .inf

/-- JS product of a nonnegative integer and a `JSNum` (`0 * Infinity = NaN`). -/
def jsMulNat (w : Nat) : JSNum → JSNum
  | .nat n => .nat (w * n)
  | .nan => .nan
  | .inf => if w = 0 then .nan else .inf

/-- JS comparison `a < n` for `a : JSNum`, `n` a nonnegative integer
(`NaN < n` and `Infinity < n` are both false). -/
def jsLtNumNat (a : JSNum) (n : Nat) : Bool :=
  match a with
  | .nat m => decide (m < n)
  | .nan => false
  | .inf => false

/-- JS comparison `n < 0.25 * a` (`n < 0.25 * NaN` is false,
`n < 0.25 * Infinity` is true; for integer `a` it is exactly `4 * n < a`). -/
def jsLtNatQuarter (n : Nat) (a : JSNum) : Bool :=
  match a with
  | .nat m => decide (4 * n < m)
  | .nan => false
  | .inf => true

/-- JS comparison `n < a` for a nonnegative integer `n` and `a : JSNum`. -/
def jsNatLt (n : Nat) (a : JSNum) : Bool :=
  match a with
  | .nat m => decide (n < m)
  | .nan => false
  | .inf => true

/-- Four numeric components, used both for an RGBA pixel and for the
4-component results of the external encoders (`octEncodeToCartesian4`,
`Cartesian4.packFloat`). -/
structure Quad where
  a : Num
  b : Num
  c : Num
  d : Num
  deriving DecidableEq, Repr

/-- Embeds a `ClippingPlane` / `Plane` object: geometric data
(`normal`, `distance`), the tracked-plane fields `index` and
`onChangeCallback` (modelled as the flag `hasCallback`), and the JS
`instanceof ClippingPlane` test (`tracked`; a plain `Plane` is untracked). -/
structure PlaneObj where
  nx : Num
  ny : Num
  nz : Num
  dist : Num
  index : Int
  hasCallback : Bool
  tracked : Bool
  deriving DecidableEq, Repr

/-- Default object returned when a heap reference is unbound; like JS
`undefined`, it fails `instanceof ClippingPlane` (`tracked := false`). -/
def defaultObj : PlaneObj := ⟨0, 0, 0, 0, -1, false, false⟩

/-- Modelled from the spec: the GPU resource collaborator (spec section 6),
an opaque buffer with a width, a height and per-pixel contents, supporting
region and full uploads.  The height is a `JSNum` because the code can
compute it as `NaN` (claim C5's `pixelsNeeded = 0` path). -/
structure Texture where
  width : Nat
  height : JSNum
  data : Nat → Nat → Quad

/-- Embeds the mutable state of a `ClippingPlaneCollection`: the plane
heap and the `_planes` array of references, `_containsUntrackablePlanes`,
the dirty tracker (`_dirtyIndex`, `_multipleDirtyPlanes`),
`_clippingPlanesTexture`, the two staging views (modelled as unbounded
zero-initialised stores, matching zero-initialised typed arrays on the
in-bounds accesses the claims exercise), and `_unionClippingRegions`. -/
structure CState where
  heap : List PlaneObj
  planes : List Nat
  containsUntrackable : Bool
  dirtyIndex : Int
  multipleDirty : Bool
  texture : Option Texture
  float32View : Nat → Num
  uint8View : Nat → Num
  unionClippingRegions : Bool

/-- Dereferences a plane object from the collection's heap. -/
def getObj (s : CState) (ref : Nat) : PlaneObj :=
  s.heap.getD ref defaultObj

/-- Embeds `Plane.equals` as used by `indexOf` (lines 297-306): value
equality of normal and distance, independent of tracking status. -/
def planeEquals (p q : PlaneObj) : Bool :=
  p.nx == q.nx && p.ny == q.ny && p.nz == q.nz && p.dist == q.dist

/-- Embeds `setIndexDirty` (lines 243-248): escalates to multiple-dirty
when a different index was already dirty, then records the index. -/
def setIndexDirty (s : CState) (index : Int) : CState :=
  { s with
    multipleDirty := s.multipleDirty || (s.dirtyIndex != -1 && s.dirtyIndex != index),
    dirtyIndex := index }

/-- Embeds `ClippingPlaneCollection.prototype.add` (lines 261-275): a
tracked plane gets the collection's change callback and its new index; an
untracked plane sets `_containsUntrackablePlanes`; the new index is always
marked dirty and the plane is appended. -/
def add (s : CState) (ref : Nat) : CState :=
  let newPlaneIndex := s.planes.length
  let obj := getObj s ref
  let s1 :=
    if obj.tracked then
      { s with heap := s.heap.set ref { obj with hasCallback := true, index := Int.ofNat newPlaneIndex } }
    else
      { s with containsUntrackable := true }
  let s2 := setIndexDirty s1 (Int.ofNat newPlaneIndex)
  { s2 with planes := s2.planes ++ [ref] }

/-- Embeds `indexOf` (lines 297-306): index of the first member value-equal
to the given plane, `none` when there is no match (the source's `-1`). -/
def indexOfPlane (s : CState) (p : PlaneObj) : Option Nat :=
  List.findIdx? (fun r => planeEquals (getObj s r) p) s.planes

/-- Embeds `ClippingPlaneCollection.prototype.contains` (lines 316-318). -/
def contains (s : CState) (ref : Nat) : Bool :=
  (indexOfPlane s (getObj s ref)).isSome

/-- Embeds the shift-and-renumber loop of `remove` (lines 344-352): for
`i` from the found index while `i < planes.length - 1`, copy
`planes[i+1]` into slot `i` and, when that kept plane is tracked, set its
`index` to `i`.  The loop counter is expressed by the remaining iteration
count `fuel = (planes.length - 1) - i` so the recursion is structural. -/
def removeShiftLoop : List PlaneObj → List Nat → Nat → Nat → List PlaneObj × List Nat
  | heap, planes, _, 0 => (heap, planes)
  | heap, planes, i, fuel + 1 =>
    let r := planes.getD (i + 1) 0
    let o := heap.getD r defaultObj
    let heap1 := if o.tracked then heap.set r { o with index := Int.ofNat i } else heap
    removeShiftLoop heap1 (planes.set i r) (i + 1) fuel

/-- Embeds `ClippingPlaneCollection.prototype.remove` (lines 330-359):
finds the first member value-equal to the argument; if none, returns
false.  Otherwise it clears the callback and index of the ARGUMENT object
(when the argument is a tracked plane), runs the shift-and-renumber loop,
truncates the array by one, marks multiple-dirty, and returns true. -/
def remove (s : CState) (ref : Nat) : CState × Bool :=
  let p := getObj s ref
  match indexOfPlane s p with
  | none => (s, false)
  | some k =>
    let heap1 := if p.tracked then s.heap.set ref { p with hasCallback := false, index := -1 } else s.heap
    let len := s.planes.length
    let hp := removeShiftLoop heap1 s.planes k (len - 1 - k)
    ({ s with heap := hp.1, planes := hp.2.take (len - 1), multipleDirty := true }, true)

/-- Embeds the detach loop of `removeAll` (lines 367-380). -/
def clearAllLoop : List PlaneObj → List Nat → List PlaneObj
  | heap, [] => heap
  | heap, r :: rest =>
    let o := heap.getD r defaultObj
    clearAllLoop (if o.tracked then heap.set r { o with hasCallback := false, index := -1 } else heap) rest

/-- Embeds `ClippingPlaneCollection.prototype.removeAll` (lines 367-380). -/
def removeAll (s : CState) : CState :=
  { s with heap := clearAllLoop s.heap s.planes, multipleDirty := true, planes := [] }

/-- A JS value passed as the `index` argument of `get`: a number or a
non-number (anything that fails `Check.typeOf.number`). -/
inductive JSVal where
  | num (i : Int)
  | nonNum
  deriving DecidableEq

/-- The fatal `DeveloperError` thrown by the `Check.typeOf.number` guard. -/
inductive DevError where
  | checkTypeNumber
  deriving DecidableEq

/-- JS array indexing `planes[index]` with an integer index: `undefined`
(here `none`) when the index is negative or at least the length. -/
def listGetI (l : List Nat) (i : Int) : Option Nat :=
  if h : 0 ≤ i ∧ i.toNat < l.length then some (l.get ⟨i.toNat, h.2⟩) else none

/-- Embeds `ClippingPlaneCollection.prototype.get` (lines 289-295): the
only guard is `Check.typeOf.number('index', index)`; a numeric index is
then used to subscript `this._planes` directly. -/
def get (s : CState) (index : JSVal) : Except DevError (Option Nat) :=
  match index with
  | .nonNum => .error .checkTypeNumber
  | .num i => .ok (listGetI s.planes i)

/-- Embeds the `pixelsNeeded` computation of `update` (line 452): one
pixel per plane with a float texture, two with a quantized one. -/
def pixelCountNeeded (useFloat : Bool) (len : Nat) : Nat :=
  if useFloat then len else len * 2

/-- Embeds `computeTextureResolution` (lines 426-433): width is
`min (pixelsNeeded, maximumTextureSize)`, height is
`Math.ceil (pixelsNeeded / width)` computed BEFORE clamping, then both are
clamped with `Math.max (·, 1)`.  With `pixelsNeeded = 0` the division is
`0 / 0 = NaN` and the height stays `NaN`. -/
def computeTextureResolution (pixelsNeeded maxSize : Nat) : Nat × JSNum :=
  let width := min pixelsNeeded maxSize
  let height := jsDivCeil pixelsNeeded width
  (max width 1, jsMax1 height)

/-- Embeds `clippingPlanesTexture.width * clippingPlanesTexture.height`
(line 456). -/
def texCapacity (t : Texture) : JSNum :=
  jsMulNat t.width t.height

/-- Embeds the reallocation test of `update` (lines 462-463): destroy and
recreate when `currentPixelCount < pixelsNeeded` or
`pixelsNeeded < 0.25 * currentPixelCount`. -/
def needsRealloc (t : Texture) (pixelsNeeded : Nat) : Bool :=
  jsLtNumNat (texCapacity t) pixelsNeeded || jsLtNatQuarter pixelsNeeded (texCapacity t)

/-- Writes one value into a flat staging view. -/
def writeSlot (v : Nat → Num) (idx : Nat) (x : Num) : Nat → Num :=
  fun n => if n = idx then x else v n

/-- Writes four consecutive values into a flat staging view. -/
def writeQuad (v : Nat → Num) (base : Nat) (q : Quad) : Nat → Num :=
  writeSlot (writeSlot (writeSlot (writeSlot v base q.a) (base + 1) q.b) (base + 2) q.c) (base + 3) q.d

/-- The plane objects of the collection in index order. -/
def planesData (s : CState) : List PlaneObj :=
  s.planes.map (getObj s)

/-- Embeds the body of `packPlanesAsFloats` (lines 408-424) over the
visited slice of planes: each plane writes `normal.x, normal.y, normal.z,
distance` at the running 4-slot offset starting from 0. -/
def packFloatsList : List PlaneObj → Nat → (Nat → Num) → (Nat → Num)
  | [], _, v => v
  | p :: rest, pos, v =>
    packFloatsList rest (pos + 4) (writeQuad v pos ⟨p.nx, p.ny, p.nz, p.dist⟩)

/-- Embeds `packPlanesAsFloats` (lines 408-424) on the sub-range
`[start, fin)` of the plane sequence.  The source indexes `planes[i]`
directly; the slice form visits exactly the same planes for the in-range
calls `update` makes (out of range, the JS code would throw on
`undefined.normal`). -/
def packPlanesAsFloats (ps : List PlaneObj) (v : Nat → Num) (start fin : Nat) : Nat → Num :=
  packFloatsList ((ps.drop start).take (fin - start)) 0 v

/-- Embeds the body of `packPlanesAsUint8` (lines 384-405): per plane,
four bytes from the octahedral normal encoder then four bytes from the
float packer, at the running 8-slot offset starting from 0.  The two
encoders are external collaborators (`AttributeCompression`,
`Cartesian4.packFloat`) passed as parameters. -/
def packUint8List (octE : Num → Num → Num → Quad) (packF : Num → Quad) :
    List PlaneObj → Nat → (Nat → Num) → (Nat → Num)
  | [], _, v => v
  | p :: rest, pos, v =>
    packUint8List octE packF rest (pos + 8)
      (writeQuad (writeQuad v pos (octE p.nx p.ny p.nz)) (pos + 4) (packF p.dist))

/-- Embeds `packPlanesAsUint8` (lines 384-405) on the sub-range
`[start, fin)` of the plane sequence. -/
def packPlanesAsUint8 (octE : Num → Num → Num → Quad) (packF : Num → Quad)
    (ps : List PlaneObj) (v : Nat → Num) (start fin : Nat) : Nat → Num :=
  packUint8List octE packF ((ps.drop start).take (fin - start)) 0 v

/-- Reads the RGBA pixel at block coordinates `(dx, dy)` of a source
block of width `srcW` stored flat in a staging view. -/
def pixelFromView (v : Nat → Num) (srcW dx dy : Nat) : Quad :=
  ⟨v ((dy * srcW + dx) * 4), v ((dy * srcW + dx) * 4 + 1),
   v ((dy * srcW + dx) * 4 + 2), v ((dy * srcW + dx) * 4 + 3)⟩

/-- Modelled from the spec: the GPU collaborator's
`uploadRegion(data, xOffset, yOffset, width, height)` (spec section 6),
the `texture.copyFrom(source, offsetX, offsetY)` call of `update`:
overwrites exactly the `srcW x srcH` region at the given offset with the
staging view's contents and leaves every other pixel unchanged. -/
def uploadRegion (t : Texture) (v : Nat → Num) (srcW srcH offX offY : Nat) : Texture :=
  { t with data := fun x y =>
      if offX ≤ x ∧ x < offX + srcW ∧ offY ≤ y ∧ y < offY + srcH
      then pixelFromView v srcW (x - offX) (y - offY)
      else t.data x y }

/-- Modelled from the spec: the GPU collaborator's full-buffer upload
(spec section 6), the whole-texture `copyFrom` call of `update`. -/
def uploadFull (t : Texture) (v : Nat → Num) : Texture :=
  { t with data := fun x y =>
      if x < t.width ∧ jsNatLt y t.height then pixelFromView v t.width x y else t.data x y }

/-- An upload request issued by `update`: offset, width and height of the
region handed to the texture collaborator. -/
structure URect where
  x : Nat
  y : Nat
  w : Nat
  h : JSNum
  deriving DecidableEq

/-- The outcome of one `update` call: the new collection state plus a
trace of the observable work done (whether the texture was reallocated,
which sub-range of the plane sequence was re-encoded, and which buffer
region was uploaded). -/
structure UpdateRes where
  state : CState
  realloc : Bool
  encodeRange : Option (Nat × Nat)
  upload : Option URect

/-- Embeds the dirty-state part of `update` (lines 508-554): skip when
clean and no full refresh is forced; otherwise do a one-plane partial
encode and a 1-wide (float) or 2-wide (quantized) 1-tall upload at the
dirty index's row/column, or a full re-encode and full upload; finally
clear the dirty state. -/
def updateDirtyPhase (useFloat : Bool) (octE : Num → Num → Num → Quad) (packF : Num → Quad)
    (s : CState) (tex : Texture) (didRealloc : Bool) : UpdateRes :=
  let refreshFullTexture := s.multipleDirty || s.containsUntrackable
  if !refreshFullTexture && s.dirtyIndex == -1 then
    ⟨s, didRealloc, none, none⟩
  else if !refreshFullTexture then
    let i := s.dirtyIndex.toNat
    let offsetY := i / tex.width
    let offsetX := i - offsetY * tex.width
    if useFloat then
      let v := packPlanesAsFloats (planesData s) s.float32View i (i + 1)
      ⟨{ s with
           float32View := v, texture := some (uploadRegion tex v 1 1 offsetX offsetY),
           multipleDirty := false, dirtyIndex := -1 },
        didRealloc, some (i, i + 1), some ⟨offsetX, offsetY, 1, .nat 1⟩⟩
    else
      let v := packPlanesAsUint8 octE packF (planesData s) s.uint8View i (i + 1)
      ⟨{ s with
           uint8View := v, texture := some (uploadRegion tex v 2 1 offsetX offsetY),
           multipleDirty := false, dirtyIndex := -1 },
        didRealloc, some (i, i + 1), some ⟨offsetX, offsetY, 2, .nat 1⟩⟩
  else if useFloat then
    let v := packPlanesAsFloats (planesData s) s.float32View 0 s.planes.length
    ⟨{ s with
         float32View := v, texture := some (uploadFull tex v),
         multipleDirty := false, dirtyIndex := -1 },
      didRealloc, some (0, s.planes.length), some ⟨0, 0, tex.width, tex.height⟩⟩
  else
    let v := packPlanesAsUint8 octE packF (planesData s) s.uint8View 0 s.planes.length
    ⟨{ s with
         uint8View := v, texture := some (uploadFull tex v),
         multipleDirty := false, dirtyIndex := -1 },
      didRealloc, some (0, s.planes.length), some ⟨0, 0, tex.width, tex.height⟩⟩

/-- Embeds the allocation branch of `update` (lines 469-506): double the
planned width, create a texture of that resolution with a fresh
zero-initialised staging view for the active layout, and force a full
refresh by setting `_multipleDirtyPlanes`. -/
def allocAndRun (useFloat : Bool) (octE : Num → Num → Num → Quad) (packF : Num → Quad)
    (s : CState) (res : Nat × JSNum) : UpdateRes :=
  let newTex : Texture := ⟨res.1 * 2, res.2, fun _ _ => ⟨0, 0, 0, 0⟩⟩
  let s1 :=
    if useFloat then
      { s with texture := some newTex, float32View := fun _ => 0, multipleDirty := true }
    else
      { s with texture := some newTex, uint8View := fun _ => 0, multipleDirty := true }
  updateDirtyPhase useFloat octE packF s1 newTex true

/-- Embeds `ClippingPlaneCollection.prototype.update` (lines 443-554):
compute the needed pixel count and planned resolution, destroy the
texture when the reallocation test fires, allocate when absent, then run
the dirty-state phase.  `useFloat` is the host capability
`ClippingPlaneCollection.useFloatTexture(context)` and `maxSize` is
`ContextLimits.maximumTextureSize`. -/
def update (useFloat : Bool) (maxSize : Nat) (octE : Num → Num → Num → Quad) (packF : Num → Quad)
    (s : CState) : UpdateRes :=
  match s.texture with
  | some t =>
    if needsRealloc t (pixelCountNeeded useFloat s.planes.length) then
      allocAndRun useFloat octE packF s
        (computeTextureResolution (pixelCountNeeded useFloat s.planes.length) maxSize)
    else
      updateDirtyPhase useFloat octE packF s t false
  | none =>
    allocAndRun useFloat octE packF s
      (computeTextureResolution (pixelCountNeeded useFloat s.planes.length) maxSize)

/-- Whether the dirty tracker is in the clean state (no pending index, no
forced full refresh). -/
def isClean (s : CState) : Bool :=
  !s.multipleDirty && s.dirtyIndex == -1

/-- The `Intersect` classification enum. -/
inductive Intersect where
  | outside
  | intersecting
  | inside
  deriving DecidableEq, Repr

/-- Embeds `unionIntersectFunction` (lines 134-136). -/
def unionIntersectFunction (value : Intersect) : Bool :=
  value == .outside

/-- Embeds `defaultIntersectFunction` (lines 138-140). -/
def defaultIntersectFunction (value : Intersect) : Bool :=
  value == .inside

/-- Embeds the `_testIntersection` selection (line 126 and the
`unionClippingRegions` setter, line 175). -/
def testIntersection (union : Bool) : Intersect → Bool :=
  if union then unionIntersectFunction else defaultIntersectFunction

/-- Embeds the plane loop of `computeIntersectionWithBoundingVolume`
(lines 628-639): an `INTERSECTING` classification is recorded and the
scan continues; a classification satisfying the mode's test returns
immediately; anything else leaves the accumulator alone. -/
def intersectScan (union : Bool) (classify : PlaneObj → Intersect) :
    List PlaneObj → Intersect → Intersect
  | [], intersection => intersection
  | p :: rest, intersection =>
    let value := classify p
    if value == .intersecting then intersectScan union classify rest value
    else if testIntersection union value then value
    else intersectScan union classify rest intersection

/-- Embeds `ClippingPlaneCollection.prototype.computeIntersectionWithBoundingVolume`
(lines 610-642).  `classify` models the external bounding-volume
collaborator composed with `Plane.transform` under
`modelMatrix × optional transform` (matrix composition and the volume are
external, so the per-plane classification is taken as given). -/
def computeIntersectionWithBoundingVolume (s : CState) (classify : PlaneObj → Intersect) : Intersect :=
  intersectScan s.unionClippingRegions classify (planesData s)
    (if !s.unionClippingRegions && decide (0 < s.planes.length) then .outside else .inside)

/-! Generic list helpers used by the loop characterisations. -/

theorem listGetDSet {α : Type} (d a : α) : ∀ (l : List α) (i j : Nat),
    (l.set i a).getD j d = if i = j ∧ j < l.length then a else l.getD j d := by
  intro l
  induction l with
  | nil => intro i j; simp
  | cons x xs ih =>
    intro i j
    cases i with
    | zero =>
      cases j with
      | zero => simp
      | succ j => simp
    | succ i =>
      cases j with
      | zero => simp
      | succ j => simpa [Nat.succ_lt_succ_iff] using ih i j

theorem listGetDTake {α : Type} (d : α) : ∀ (l : List α) (n j : Nat), j < n →
    (l.take n).getD j d = l.getD j d := by
  intro l
  induction l with
  | nil => intro n j _; simp
  | cons x xs ih =>
    intro n j hj
    cases n with
    | zero => omega
    | succ n =>
      cases j with
      | zero => simp
      | succ j => simpa using ih n j (by omega)

theorem listGetDAppend {α : Type} (d : α) : ∀ (l₁ l₂ : List α) (j : Nat),
    (l₁ ++ l₂).getD j d = if j < l₁.length then l₁.getD j d else l₂.getD (j - l₁.length) d := by
  intro l₁
  induction l₁ with
  | nil => intro l₂ j; simp
  | cons x xs ih =>
    intro l₂ j
    cases j with
    | zero => simp
    | succ j => simpa [Nat.succ_lt_succ_iff] using ih l₂ j

theorem listGetDDrop {α : Type} (d : α) : ∀ (l : List α) (n j : Nat),
    (l.drop n).getD j d = l.getD (n + j) d := by
  intro l
  induction l with
  | nil => intro n j; simp
  | cons x xs ih =>
    intro n j
    cases n with
    | zero => simp
    | succ n => simp only [List.drop_succ_cons, List.getD_cons_succ, Nat.succ_add, ih n j]

theorem listExtGetD {α : Type} (d : α) : ∀ (l₁ l₂ : List α), l₁.length = l₂.length →
    (∀ j, j < l₁.length → l₁.getD j d = l₂.getD j d) → l₁ = l₂ := by
  intro l₁
  induction l₁ with
  | nil =>
    intro l₂ hlen _
    cases l₂ with
    | nil => rfl
    | cons y ys => simp at hlen
  | cons x xs ih =>
    intro l₂ hlen hget
    cases l₂ with
    | nil => simp at hlen
    | cons y ys =>
      have h0 := hget 0 (by simp)
      simp at h0
      have htail : xs = ys := by
        refine ih ys (by simpa using hlen) ?_
        intro j hj
        simpa using hget (j + 1) (by simpa using Nat.succ_lt_succ hj)
      rw [h0, htail]

theorem listGetDMem {α : Type} (d : α) : ∀ (l : List α) (j : Nat), j < l.length →
    l.getD j d ∈ l := by
  intro l
  induction l with
  | nil => intro j hj; simp at hj
  | cons x xs ih =>
    intro j hj
    cases j with
    | zero => simp
    | succ j =>
      simp only [List.getD_cons_succ]
      exact List.mem_cons_of_mem x (ih j (by simpa [Nat.succ_lt_succ_iff] using hj))

theorem listNodupGetDNe {α : Type} (d : α) (l : List α) (hn : l.Nodup) (a b : Nat)
    (ha : a < l.length) (hb : b < l.length) (hab : a ≠ b) : l.getD a d ≠ l.getD b d := by
  have h1 : l.getD a d = l.get ⟨a, ha⟩ := by
    simp [List.getD_eq_getElem?_getD, List.getElem?_eq_getElem ha]
  have h2 : l.getD b d = l.get ⟨b, hb⟩ := by
    simp [List.getD_eq_getElem?_getD, List.getElem?_eq_getElem hb]
  rw [h1, h2]
  intro heq
  have := List.Nodup.get_inj_iff hn |>.mp heq
  exact hab (congrArg Fin.val this)

/-! Characterisation of the shift-and-renumber loop of `remove`. -/

theorem removeShiftLoop_planes_length : ∀ (fuel : Nat) (heap : List PlaneObj) (planes : List Nat)
    (i : Nat), ((removeShiftLoop heap planes i fuel).2).length = planes.length := by
  intro fuel
  induction fuel with
  | zero => intro heap planes i; simp [removeShiftLoop]
  | succ fuel ih =>
    intro heap planes i
    simp only [removeShiftLoop]
    rw [ih]
    simp

theorem removeShiftLoop_heap_length : ∀ (fuel : Nat) (heap : List PlaneObj) (planes : List Nat)
    (i : Nat), ((removeShiftLoop heap planes i fuel).1).length = heap.length := by
  intro fuel
  induction fuel with
  | zero => intro heap planes i; simp [removeShiftLoop]
  | succ fuel ih =>
    intro heap planes i
    simp only [removeShiftLoop]
    rw [ih]
    split <;> simp

theorem removeShiftLoop_planes_getD : ∀ (fuel : Nat) (heap : List PlaneObj) (planes : List Nat)
    (i : Nat), i + fuel ≤ planes.length → ∀ j,
    ((removeShiftLoop heap planes i fuel).2).getD j 0 =
      if i ≤ j ∧ j < i + fuel then planes.getD (j + 1) 0 else planes.getD j 0 := by
  intro fuel
  induction fuel with
  | zero =>
    intro heap planes i _ j
    simp only [removeShiftLoop]
    rw [if_neg (by omega)]
  | succ fuel ih =>
    intro heap planes i h j
    simp only [removeShiftLoop]
    rw [ih _ _ _ (by rw [List.length_set]; omega) j, listGetDSet, listGetDSet]
    split_ifs <;> first | rfl | omega | simp_all

theorem removeShiftLoop_heap_untouched : ∀ (fuel : Nat) (heap : List PlaneObj) (planes : List Nat)
    (i : Nat) (r : Nat), (∀ j, i ≤ j → j < i + fuel → planes.getD (j + 1) 0 ≠ r) →
    ((removeShiftLoop heap planes i fuel).1).getD r defaultObj = heap.getD r defaultObj := by
  intro fuel
  induction fuel with
  | zero => intro heap planes i r _; simp [removeShiftLoop]
  | succ fuel ih =>
    intro heap planes i r hne
    simp only [removeShiftLoop]
    rw [ih]
    · have hr0 : planes.getD (i + 1) 0 ≠ r := hne i (Nat.le_refl i) (by omega)
      split
      · rw [listGetDSet, if_neg (fun hc => hr0 hc.1)]
      · rfl
    · intro j hj1 hj2
      rw [listGetDSet, if_neg (by omega)]
      exact hne j (by omega) (by omega)

theorem removeShiftLoop_heap_fields : ∀ (fuel : Nat) (heap : List PlaneObj) (planes : List Nat)
    (i : Nat) (r : Nat),
    (((removeShiftLoop heap planes i fuel).1).getD r defaultObj).hasCallback =
      (heap.getD r defaultObj).hasCallback ∧
    (((removeShiftLoop heap planes i fuel).1).getD r defaultObj).tracked =
      (heap.getD r defaultObj).tracked := by
  intro fuel
  induction fuel with
  | zero => intro heap planes i r; simp [removeShiftLoop]
  | succ fuel ih =>
    intro heap planes i r
    simp only [removeShiftLoop]
    constructor
    · rw [(ih _ _ _ _).1]
      split
      · rw [listGetDSet]
        split
        · rename_i hc
          rw [hc.1]
        · rfl
      · rfl
    · rw [(ih _ _ _ _).2]
      split
      · rw [listGetDSet]
        split
        · rename_i hc
          rw [hc.1]
        · rfl
      · rfl

theorem removeShiftLoop_heap_written : ∀ (fuel : Nat) (heap : List PlaneObj) (planes : List Nat)
    (i j : Nat), i ≤ j → j < i + fuel → i + fuel ≤ planes.length →
    planes.getD (j + 1) 0 < heap.length →
    (∀ j', i ≤ j' → j' < i + fuel → j' ≠ j → planes.getD (j' + 1) 0 ≠ planes.getD (j + 1) 0) →
    ((removeShiftLoop heap planes i fuel).1).getD (planes.getD (j + 1) 0) defaultObj =
      (if (heap.getD (planes.getD (j + 1) 0) defaultObj).tracked
       then { heap.getD (planes.getD (j + 1) 0) defaultObj with index := Int.ofNat j }
       else heap.getD (planes.getD (j + 1) 0) defaultObj) := by
  intro fuel
  induction fuel with
  | zero => intro heap planes i j h1 h2; omega
  | succ fuel ih =>
    intro heap planes i j hij hjf hlen hr hdist
    simp only [removeShiftLoop]
    by_cases hji : j = i
    · subst hji
      have hside : ∀ j', j + 1 ≤ j' → j' < j + 1 + fuel →
          (planes.set j (planes.getD (j + 1) 0)).getD (j' + 1) 0 ≠ planes.getD (j + 1) 0 := by
        intro j' hj'1 hj'2
        rw [listGetDSet, if_neg (by omega)]
        exact hdist j' (by omega) (by omega) (by omega)
      by_cases htr : (heap.getD (planes.getD (j + 1) 0) defaultObj).tracked = true
      · rw [if_pos htr, if_pos htr]
        rw [removeShiftLoop_heap_untouched fuel _ _ _ _ hside]
        rw [listGetDSet, if_pos ⟨rfl, hr⟩]
      · rw [if_neg htr, if_neg htr]
        rw [removeShiftLoop_heap_untouched fuel _ _ _ _ hside]
    · have hrne : planes.getD (i + 1) 0 ≠ planes.getD (j + 1) 0 :=
        hdist i (Nat.le_refl i) (by omega) (fun hc => hji hc.symm)
      have hset : (planes.set i (planes.getD (i + 1) 0)).getD (j + 1) 0 =
          planes.getD (j + 1) 0 := by
        rw [listGetDSet, if_neg (by omega)]
      have key : ∀ (heap1 : List PlaneObj),
          heap1.getD (planes.getD (j + 1) 0) defaultObj = heap.getD (planes.getD (j + 1) 0) defaultObj →
          heap1.length = heap.length →
          (removeShiftLoop heap1 (planes.set i (planes.getD (i + 1) 0)) (i + 1) fuel).1.getD
              (planes.getD (j + 1) 0) defaultObj =
            (if (heap.getD (planes.getD (j + 1) 0) defaultObj).tracked
             then { heap.getD (planes.getD (j + 1) 0) defaultObj with index := Int.ofNat j }
             else heap.getD (planes.getD (j + 1) 0) defaultObj) := by
        intro heap1 hco hlen1
        have hmain := ih heap1 (planes.set i (planes.getD (i + 1) 0)) (i + 1) j (by omega) (by omega)
          (by rw [List.length_set]; omega) (by rw [hset, hlen1]; exact hr)
          (by
            intro j' hj'1 hj'2 hj'3
            rw [hset, listGetDSet, if_neg (by omega)]
            exact hdist j' (by omega) (by omega) hj'3)
        rw [hset] at hmain
        rw [hmain, hco]
      split
      · refine key _ ?_ (by rw [List.length_set])
        rw [listGetDSet, if_neg (fun hc => hrne hc.1)]
      · exact key _ rfl rfl

/-! Branch lemmas for `updateDirtyPhase` and `update`. -/

theorem phase_clean (uf : Bool) (oe : Num → Num → Num → Quad) (pf : Num → Quad) (s : CState)
    (tex : Texture) (dr : Bool) (hmd : s.multipleDirty = false)
    (hu : s.containsUntrackable = false) (hdi : s.dirtyIndex = -1) :
    updateDirtyPhase uf oe pf s tex dr = ⟨s, dr, none, none⟩ := by
  simp only [updateDirtyPhase]
  rw [hmd, hu, hdi]
  simp

theorem phase_pres (uf : Bool) (oe : Num → Num → Num → Quad) (pf : Num → Quad) (s : CState)
    (tex : Texture) (dr : Bool) :
    (updateDirtyPhase uf oe pf s tex dr).state.planes = s.planes ∧
    (updateDirtyPhase uf oe pf s tex dr).state.heap = s.heap ∧
    (updateDirtyPhase uf oe pf s tex dr).state.containsUntrackable = s.containsUntrackable ∧
    (updateDirtyPhase uf oe pf s tex dr).state.multipleDirty = false ∧
    (updateDirtyPhase uf oe pf s tex dr).state.dirtyIndex = -1 ∧
    (updateDirtyPhase uf oe pf s tex dr).realloc = dr := by
  simp only [updateDirtyPhase]
  split
  · rename_i hcond
    simp only [Bool.and_eq_true, Bool.not_eq_true', Bool.or_eq_false_iff, beq_iff_eq] at hcond
    simp [hcond.1.1, hcond.2]
  · split
    · cases uf <;> simp
    · cases uf <;> simp

theorem phase_texture (uf : Bool) (oe : Num → Num → Num → Quad) (pf : Num → Quad) (s : CState)
    (tex : Texture) (dr : Bool) (hst : s.texture = some tex) :
    ∃ t', (updateDirtyPhase uf oe pf s tex dr).state.texture = some t' ∧
      t'.width = tex.width ∧ t'.height = tex.height := by
  simp only [updateDirtyPhase]
  split
  · exact ⟨tex, hst, rfl, rfl⟩
  · split
    · cases uf
      · exact ⟨_, rfl, rfl, rfl⟩
      · exact ⟨_, rfl, rfl, rfl⟩
    · cases uf
      · exact ⟨_, rfl, rfl, rfl⟩
      · exact ⟨_, rfl, rfl, rfl⟩

theorem phase_full (uf : Bool) (oe : Num → Num → Num → Quad) (pf : Num → Quad) (s : CState)
    (tex : Texture) (dr : Bool) (hrf : (s.multipleDirty || s.containsUntrackable) = true) :
    (updateDirtyPhase uf oe pf s tex dr).encodeRange = some (0, s.planes.length) ∧
    (updateDirtyPhase uf oe pf s tex dr).upload = some ⟨0, 0, tex.width, tex.height⟩ := by
  simp only [updateDirtyPhase]
  rw [hrf]
  cases uf <;> simp

theorem intOfNat_bne_negone (i : Nat) : (Int.ofNat i == -1) = false := by
  rw [beq_eq_false_iff_ne, Int.ofNat_eq_coe]
  omega

theorem phase_partial_float (oe : Num → Num → Num → Quad) (pf : Num → Quad) (s : CState)
    (tex : Texture) (dr : Bool) (i : Nat) (hmd : s.multipleDirty = false)
    (hu : s.containsUntrackable = false) (hdi : s.dirtyIndex = Int.ofNat i) :
    updateDirtyPhase true oe pf s tex dr =
      ⟨{ s with
           float32View := packPlanesAsFloats (planesData s) s.float32View i (i + 1),
           texture := some (uploadRegion tex
             (packPlanesAsFloats (planesData s) s.float32View i (i + 1)) 1 1
             (i - i / tex.width * tex.width) (i / tex.width)),
           multipleDirty := false, dirtyIndex := -1 },
        dr, some (i, i + 1), some ⟨i - i / tex.width * tex.width, i / tex.width, 1, .nat 1⟩⟩ := by
  simp only [updateDirtyPhase]
  rw [hmd, hu, hdi, intOfNat_bne_negone]
  simp

theorem phase_partial_uint8 (oe : Num → Num → Num → Quad) (pf : Num → Quad) (s : CState)
    (tex : Texture) (dr : Bool) (i : Nat) (hmd : s.multipleDirty = false)
    (hu : s.containsUntrackable = false) (hdi : s.dirtyIndex = Int.ofNat i) :
    updateDirtyPhase false oe pf s tex dr =
      ⟨{ s with
           uint8View := packPlanesAsUint8 oe pf (planesData s) s.uint8View i (i + 1),
           texture := some (uploadRegion tex
             (packPlanesAsUint8 oe pf (planesData s) s.uint8View i (i + 1)) 2 1
             (i - i / tex.width * tex.width) (i / tex.width)),
           multipleDirty := false, dirtyIndex := -1 },
        dr, some (i, i + 1), some ⟨i - i / tex.width * tex.width, i / tex.width, 2, .nat 1⟩⟩ := by
  simp only [updateDirtyPhase]
  rw [hmd, hu, hdi, intOfNat_bne_negone]
  simp

theorem update_keep (uf : Bool) (ms : Nat) (oe : Num → Num → Num → Quad) (pf : Num → Quad)
    (s : CState) (tex : Texture) (hst : s.texture = some tex)
    (hreal : needsRealloc tex (pixelCountNeeded uf s.planes.length) = false) :
    update uf ms oe pf s = updateDirtyPhase uf oe pf s tex false := by
  unfold update
  rw [hst]
  simp [hreal]

theorem update_alloc_of_realloc (uf : Bool) (ms : Nat) (oe : Num → Num → Num → Quad)
    (pf : Num → Quad) (s : CState) (tex : Texture) (hst : s.texture = some tex)
    (hreal : needsRealloc tex (pixelCountNeeded uf s.planes.length) = true) :
    update uf ms oe pf s = allocAndRun uf oe pf s
      (computeTextureResolution (pixelCountNeeded uf s.planes.length) ms) := by
  unfold update
  rw [hst]
  simp [hreal]

theorem update_alloc_of_none (uf : Bool) (ms : Nat) (oe : Num → Num → Num → Quad)
    (pf : Num → Quad) (s : CState) (hst : s.texture = none) :
    update uf ms oe pf s = allocAndRun uf oe pf s
      (computeTextureResolution (pixelCountNeeded uf s.planes.length) ms) := by
  unfold update
  rw [hst]

theorem ceil_mul_bounds (N w : Nat) (hw : 1 ≤ w) :
    N ≤ w * ((N + w - 1) / w) ∧ w * ((N + w - 1) / w) ≤ N + w - 1 := by
  have hmod := Nat.div_add_mod (N + w - 1) w
  have hlt : (N + w - 1) % w < w := Nat.mod_lt _ (by omega)
  set q := (N + w - 1) / w with hq
  set r := (N + w - 1) % w with hr
  set p := w * q with hp
  omega

theorem needsRealloc_alloc (N maxSize : Nat) (hms : 1 ≤ maxSize) (data : Nat → Nat → Quad) :
    needsRealloc ⟨(computeTextureResolution N maxSize).1 * 2,
      (computeTextureResolution N maxSize).2, data⟩ N = false := by
  by_cases hN : N = 0
  · subst hN
    have h1 : computeTextureResolution 0 maxSize = (1, JSNum.nan) := by
      simp [computeTextureResolution, jsDivCeil, jsMax1]
    rw [h1]
    simp [needsRealloc, texCapacity, jsMulNat, jsLtNumNat, jsLtNatQuarter]
  · have hw1 : 1 ≤ min N maxSize := by omega
    have hwN : min N maxSize ≤ N := Nat.min_le_left N maxSize
    have hq1 : 1 ≤ (N + min N maxSize - 1) / min N maxSize := by
      rw [Nat.one_le_div_iff (by omega)]
      omega
    have hd : jsDivCeil N (min N maxSize) =
        JSNum.nat ((N + min N maxSize - 1) / min N maxSize) := by
      unfold jsDivCeil
      rw [if_neg (by omega)]
    have h1 : computeTextureResolution N maxSize =
        (min N maxSize, JSNum.nat ((N + min N maxSize - 1) / min N maxSize)) := by
      simp only [computeTextureResolution]
      rw [hd]
      simp only [jsMax1]
      rw [max_eq_left hw1, max_eq_left hq1]
    rw [h1]
    have hb := ceil_mul_bounds N (min N maxSize) hw1
    simp only [needsRealloc, texCapacity, jsMulNat, jsLtNumNat, jsLtNatQuarter,
      Bool.or_eq_false_iff, decide_eq_false_iff_not]
    have hassoc : min N maxSize * 2 * ((N + min N maxSize - 1) / min N maxSize) =
        2 * (min N maxSize * ((N + min N maxSize - 1) / min N maxSize)) := by ring
    rw [hassoc]
    set p := min N maxSize * ((N + min N maxSize - 1) / min N maxSize) with hp
    constructor
    · omega
    · omega

theorem update_pres (uf : Bool) (ms : Nat) (oe : Num → Num → Num → Quad) (pf : Num → Quad)
    (s : CState) (hms : 1 ≤ ms) :
    (update uf ms oe pf s).state.planes = s.planes ∧
    (update uf ms oe pf s).state.heap = s.heap ∧
    (update uf ms oe pf s).state.containsUntrackable = s.containsUntrackable ∧
    (update uf ms oe pf s).state.multipleDirty = false ∧
    (update uf ms oe pf s).state.dirtyIndex = -1 ∧
    ∃ t', (update uf ms oe pf s).state.texture = some t' ∧
      needsRealloc t' (pixelCountNeeded uf s.planes.length) = false := by
  have halloc : ∀ res : Nat × JSNum,
      res = computeTextureResolution (pixelCountNeeded uf s.planes.length) ms →
      (allocAndRun uf oe pf s res).state.planes = s.planes ∧
      (allocAndRun uf oe pf s res).state.heap = s.heap ∧
      (allocAndRun uf oe pf s res).state.containsUntrackable = s.containsUntrackable ∧
      (allocAndRun uf oe pf s res).state.multipleDirty = false ∧
      (allocAndRun uf oe pf s res).state.dirtyIndex = -1 ∧
      ∃ t', (allocAndRun uf oe pf s res).state.texture = some t' ∧
        needsRealloc t' (pixelCountNeeded uf s.planes.length) = false := by
    intro res hres
    unfold allocAndRun
    split
    · have hp := phase_pres uf oe pf
        { s with texture := some ⟨res.1 * 2, res.2, fun _ _ => ⟨0, 0, 0, 0⟩⟩,
                 float32View := fun _ => 0, multipleDirty := true }
        ⟨res.1 * 2, res.2, fun _ _ => ⟨0, 0, 0, 0⟩⟩ true
      have ht := phase_texture uf oe pf
        { s with texture := some ⟨res.1 * 2, res.2, fun _ _ => ⟨0, 0, 0, 0⟩⟩,
                 float32View := fun _ => 0, multipleDirty := true }
        ⟨res.1 * 2, res.2, fun _ _ => ⟨0, 0, 0, 0⟩⟩ true rfl
      refine ⟨hp.1, hp.2.1, hp.2.2.1, hp.2.2.2.1, hp.2.2.2.2.1, ?_⟩
      obtain ⟨t', ht1, ht2, ht3⟩ := ht
      refine ⟨t', ht1, ?_⟩
      have : needsRealloc t' (pixelCountNeeded uf s.planes.length) =
          needsRealloc ⟨res.1 * 2, res.2, fun _ _ => ⟨0, 0, 0, 0⟩⟩
            (pixelCountNeeded uf s.planes.length) := by
        unfold needsRealloc texCapacity
        rw [ht2, ht3]
      rw [this, hres]
      exact needsRealloc_alloc _ ms hms _
    · have hp := phase_pres uf oe pf
        { s with texture := some ⟨res.1 * 2, res.2, fun _ _ => ⟨0, 0, 0, 0⟩⟩,
                 uint8View := fun _ => 0, multipleDirty := true }
        ⟨res.1 * 2, res.2, fun _ _ => ⟨0, 0, 0, 0⟩⟩ true
      have ht := phase_texture uf oe pf
        { s with texture := some ⟨res.1 * 2, res.2, fun _ _ => ⟨0, 0, 0, 0⟩⟩,
                 uint8View := fun _ => 0, multipleDirty := true }
        ⟨res.1 * 2, res.2, fun _ _ => ⟨0, 0, 0, 0⟩⟩ true rfl
      refine ⟨hp.1, hp.2.1, hp.2.2.1, hp.2.2.2.1, hp.2.2.2.2.1, ?_⟩
      obtain ⟨t', ht1, ht2, ht3⟩ := ht
      refine ⟨t', ht1, ?_⟩
      have : needsRealloc t' (pixelCountNeeded uf s.planes.length) =
          needsRealloc ⟨res.1 * 2, res.2, fun _ _ => ⟨0, 0, 0, 0⟩⟩
            (pixelCountNeeded uf s.planes.length) := by
        unfold needsRealloc texCapacity
        rw [ht2, ht3]
      rw [this, hres]
      exact needsRealloc_alloc _ ms hms _
  cases hst : s.texture with
  | none =>
    rw [update_alloc_of_none uf ms oe pf s hst]
    exact halloc _ rfl
  | some tex =>
    cases hreal : needsRealloc tex (pixelCountNeeded uf s.planes.length) with
    | true =>
      rw [update_alloc_of_realloc uf ms oe pf s tex hst hreal]
      exact halloc _ rfl
    | false =>
      rw [update_keep uf ms oe pf s tex hst hreal]
      have hp := phase_pres uf oe pf s tex false
      have ht := phase_texture uf oe pf s tex false hst
      refine ⟨hp.1, hp.2.1, hp.2.2.1, hp.2.2.2.1, hp.2.2.2.2.1, ?_⟩
      obtain ⟨t', ht1, ht2, ht3⟩ := ht
      refine ⟨t', ht1, ?_⟩
      have : needsRealloc t' (pixelCountNeeded uf s.planes.length) =
          needsRealloc tex (pixelCountNeeded uf s.planes.length) := by
        unfold needsRealloc texCapacity
        rw [ht2, ht3]
      rw [this, hreal]

theorem update_state_clean (uf : Bool) (ms : Nat) (oe : Num → Num → Num → Quad)
    (pf : Num → Quad) (s : CState) :
    (update uf ms oe pf s).state.multipleDirty = false ∧
    (update uf ms oe pf s).state.dirtyIndex = -1 := by
  cases hst : s.texture with
  | none =>
    rw [update_alloc_of_none uf ms oe pf s hst]
    simp only [allocAndRun]
    split <;>
      exact ⟨(phase_pres _ _ _ _ _ _).2.2.2.1, (phase_pres _ _ _ _ _ _).2.2.2.2.1⟩
  | some tex =>
    cases hreal : needsRealloc tex (pixelCountNeeded uf s.planes.length) with
    | true =>
      rw [update_alloc_of_realloc uf ms oe pf s tex hst hreal]
      simp only [allocAndRun]
      split <;>
        exact ⟨(phase_pres _ _ _ _ _ _).2.2.2.1, (phase_pres _ _ _ _ _ _).2.2.2.2.1⟩
    | false =>
      rw [update_keep uf ms oe pf s tex hst hreal]
      exact ⟨(phase_pres _ _ _ _ _ _).2.2.2.1, (phase_pres _ _ _ _ _ _).2.2.2.2.1⟩

/-! Claim theorems. -/

/-- A one-plane collection used as a concrete instance for claim C2. -/
def c2State : CState :=
  ⟨[⟨1, 0, 0, 5, 0, true, true⟩], [0], false, -1, false, none, fun _ => 0, fun _ => 0, false⟩

/-- C2 counterexample: `get` with the out-of-range numeric index 5 (and
with -1) on a one-plane collection returns `undefined` (`ok none`) instead
of failing with an error, refuting the claim that an out-of-range index is
a fatal error. -/
theorem claim2_counterexample :
    get c2State (JSVal.num 5) = Except.ok none ∧
    get c2State (JSVal.num (-1)) = Except.ok none ∧
    ∀ e, get c2State (JSVal.num 5) ≠ Except.error e := by
  refine ⟨rfl, rfl, ?_⟩
  intro e h
  exact Except.noConfusion h

/-- C2 amended: `get` validates only that the index is a number (a
non-number fails fast with the `Check` error); a numeric index that is
negative or at least the collection's length returns `undefined` (no
plane) without raising any error. -/
theorem claim2_amended :
    (∀ (s : CState) (i : Int), (i < 0 ∨ (s.planes.length : Int) ≤ i) →
      get s (JSVal.num i) = Except.ok none) ∧
    (∀ s : CState, get s JSVal.nonNum = Except.error DevError.checkTypeNumber) := by
  constructor
  · intro s i hi
    simp only [get, listGetI]
    rw [dif_neg]
    intro hc
    rcases hi with h | h
    · omega
    · have h2 := hc.2
      have h1 := hc.1
      omega
  · intro s
    rfl

/-- C2 witness: the amended statement applied at the concrete out-of-range
index 5 of the one-plane collection. -/
theorem claim2_witness :
    ((5 : Int) < 0 ∨ (c2State.planes.length : Int) ≤ 5) ∧
    get c2State (JSVal.num 5) = Except.ok none :=
  ⟨by decide, claim2_amended.1 c2State 5 (by decide)⟩

/-- Resolution formula exactly as the claim states it: width is clamped
before the ceiling division, so both components are always integers. -/
def specResolution (pixelsNeeded maxWidth : Nat) : Nat × Nat :=
  let width := max (min pixelsNeeded maxWidth) 1
  (width, max ((pixelsNeeded + width - 1) / width) 1)

/-- C5 counterexample: at `pixelsNeeded = 0` (with `maxWidth = 16`) the
code's height is `NaN` while the claim's formula demands the integer 1 —
the height is not a well-defined integer at 0. -/
theorem claim5_counterexample :
    computeTextureResolution 0 16 = (1, JSNum.nan) ∧ specResolution 0 16 = (1, 1) := by
  constructor <;> rfl

/-- C5 amended: for every `pixelsNeeded ≥ 1` and `maxWidth ≥ 1` the
planned resolution satisfies the claim's formulas
`width = max (min pixelsNeeded maxWidth) 1` and
`height = max (ceil (pixelsNeeded / width)) 1`; at `pixelsNeeded = 0` the
width is clamped to 1 but the height is `NaN` because the code divides by
the unclamped zero width. -/
theorem claim5_amended (N maxW : Nat) (hN : 1 ≤ N) (hm : 1 ≤ maxW) :
    computeTextureResolution N maxW =
      ((specResolution N maxW).1, JSNum.nat (specResolution N maxW).2) := by
  have hw1 : 1 ≤ min N maxW := by omega
  have hd : jsDivCeil N (min N maxW) = JSNum.nat ((N + min N maxW - 1) / min N maxW) := by
    unfold jsDivCeil
    rw [if_neg (by omega)]
  simp only [computeTextureResolution, specResolution]
  rw [hd]
  simp only [jsMax1]
  rw [max_eq_left hw1]

/-- C5 witness: the amended statement applied at `pixelsNeeded = 5`,
`maxWidth = 3`. -/
theorem claim5_witness :
    (1 ≤ 5 ∧ 1 ≤ 3) ∧
    computeTextureResolution 5 3 = ((specResolution 5 3).1, JSNum.nat (specResolution 5 3).2) :=
  ⟨by decide, claim5_amended 5 3 (by decide) (by decide)⟩

/-- C7: the dirty tracker's single authoritative rule.  Recording an index
while a different index is already dirty escalates to multiple-dirty;
recording the index already recorded changes nothing; recording a (plane)
index never produces the clean state and never clears multiple-dirty; the
mutation operations never produce the clean state from a non-clean one;
and `update` — whose completed encodes are the only clearing events —
leaves the tracker clean whenever it re-encoded anything. -/
theorem claim7_dirty_tracker :
    (∀ (s : CState) (i : Int), s.multipleDirty = false → s.dirtyIndex ≠ -1 → s.dirtyIndex ≠ i →
      (setIndexDirty s i).multipleDirty = true) ∧
    (∀ (s : CState) (i : Int), s.dirtyIndex = i → setIndexDirty s i = s) ∧
    (∀ (s : CState) (i : Int), 0 ≤ i → isClean (setIndexDirty s i) = false) ∧
    (∀ (s : CState) (i : Int), s.multipleDirty = true → (setIndexDirty s i).multipleDirty = true) ∧
    (∀ (s : CState) (ref : Nat), isClean s = false →
      isClean (add s ref) = false ∧ isClean (remove s ref).1 = false ∧
      isClean (removeAll s) = false) ∧
    (∀ (uf : Bool) (ms : Nat) (oe : Num → Num → Num → Quad) (pf : Num → Quad) (s : CState),
      (update uf ms oe pf s).encodeRange ≠ none →
      isClean (update uf ms oe pf s).state = true) := by
  refine ⟨?_, ?_, ?_, ?_, ?_, ?_⟩
  · intro s i hmd hne hnei
    simp [setIndexDirty, hmd, bne_iff_ne, hne, hnei]
  · intro s i hdi
    cases s
    simp_all [setIndexDirty]
  · intro s i hi
    have hb : (i == -1) = false := by
      rw [beq_eq_false_iff_ne]
      omega
    simp [isClean, setIndexDirty, hb]
  · intro s i hmd
    simp [setIndexDirty, hmd]
  · intro s ref hcl
    refine ⟨?_, ?_, ?_⟩
    · simp only [add]
      split <;> simp [setIndexDirty, isClean, intOfNat_bne_negone]
    · simp only [remove]
      cases hfind : indexOfPlane s (getObj s ref) with
      | none => simpa using hcl
      | some k => simp [isClean]
    · simp [removeAll, isClean]
  · intro uf ms oe pf s _
    have h := update_state_clean uf ms oe pf s
    simp [isClean, h.1, h.2]

/-- A state whose dirty tracker holds the single dirty index 2, used as a
concrete instance for claim C7. -/
def c7State : CState := ⟨[], [], false, 2, false, none, fun _ => 0, fun _ => 0, false⟩

/-- C7 witness: recording index 5 while index 2 is dirty escalates the
concrete tracker to multiple-dirty. -/
theorem claim7_witness :
    (c7State.multipleDirty = false ∧ c7State.dirtyIndex ≠ -1 ∧ c7State.dirtyIndex ≠ (5 : Int)) ∧
    (setIndexDirty c7State 5).multipleDirty = true :=
  ⟨⟨rfl, by decide, by decide⟩, claim7_dirty_tracker.1 c7State 5 rfl (by decide) (by decide)⟩

/-- Scan loop exactly as the claim describes it: on `INTERSECTING` record
and continue; on `OUTSIDE` in union mode or `INSIDE` in intersection mode
return that classification immediately; otherwise keep scanning. -/
def specScanLoop (union : Bool) (classify : PlaneObj → Intersect) :
    List PlaneObj → Intersect → Intersect
  | [], result => result
  | p :: rest, result =>
    match classify p with
    | .intersecting => specScanLoop union classify rest .intersecting
    | .outside => if union then .outside else specScanLoop union classify rest result
    | .inside => if union then specScanLoop union classify rest result else .inside

/-- Whole algorithm as the claim states it: initialise the result to
`INSIDE` if union mode or the set is empty, else `OUTSIDE`, then scan. -/
def specIntersect (union : Bool) (classify : PlaneObj → Intersect)
    (planes : List PlaneObj) : Intersect :=
  specScanLoop union classify planes (if union || planes.isEmpty then .inside else .outside)

theorem scan_eq_spec (union : Bool) (classify : PlaneObj → Intersect) :
    ∀ (l : List PlaneObj) (acc : Intersect),
    intersectScan union classify l acc = specScanLoop union classify l acc := by
  intro l
  induction l with
  | nil => intro acc; rfl
  | cons p rest ih =>
    intro acc
    simp only [intersectScan, specScanLoop]
    cases hc : classify p <;> cases union <;>
      simp [hc, testIntersection, unionIntersectFunction, defaultIntersectFunction, ih]

/-- C8: the classifier equals the claim's algorithm — result initialised
to `INSIDE` for union mode or an empty set and `OUTSIDE` otherwise, planes
scanned in index order, `INTERSECTING` recorded without early exit, and
the mode's early-exit classification returned immediately — for every
collection and every per-plane classification the volume collaborator can
return. -/
theorem claim8_intersection_algorithm (s : CState) (classify : PlaneObj → Intersect) :
    computeIntersectionWithBoundingVolume s classify =
      specIntersect s.unionClippingRegions classify (planesData s) := by
  unfold computeIntersectionWithBoundingVolume specIntersect
  rw [scan_eq_spec]
  congr 1
  cases hu : s.unionClippingRegions <;> cases hp : s.planes <;>
    simp [planesData, hp]

/-- C10: on an empty collection — in intersection mode as well as union
mode — the classifier returns `INSIDE` for every per-plane classification
function (hence for every bounding volume and extra transform, which enter
only through that function). -/
theorem claim10_empty_inside (s : CState) (classify : PlaneObj → Intersect)
    (h : s.planes = []) :
    computeIntersectionWithBoundingVolume s classify = Intersect.inside := by
  unfold computeIntersectionWithBoundingVolume planesData
  rw [h]
  cases s.unionClippingRegions <;> simp [intersectScan]

/-- An empty intersection-mode collection used as a concrete instance for
claim C10. -/
def c10State : CState := ⟨[], [], false, -1, false, none, fun _ => 0, fun _ => 0, false⟩

/-- C10 witness: the empty intersection-mode collection classifies a
volume reported `OUTSIDE` by every plane test as `INSIDE`. -/
theorem claim10_witness :
    c10State.planes = [] ∧
    computeIntersectionWithBoundingVolume c10State (fun _ => Intersect.outside) =
      Intersect.inside :=
  ⟨rfl, claim10_empty_inside c10State (fun _ => Intersect.outside) rfl⟩

/-- Concrete stand-ins for the external encoders, used only to instantiate
theorems at specific inputs. -/
def octEncZero : Num → Num → Num → Quad := fun _ _ _ => ⟨0, 0, 0, 0⟩

/-- Concrete stand-in for the external distance packer. -/
def packFloatZero : Num → Quad := fun _ => ⟨0, 0, 0, 0⟩

theorem alloc_props (uf : Bool) (oe : Num → Num → Num → Quad) (pf : Num → Quad)
    (s : CState) (res : Nat × JSNum) :
    (allocAndRun uf oe pf s res).realloc = true ∧
    (allocAndRun uf oe pf s res).encodeRange = some (0, s.planes.length) ∧
    (allocAndRun uf oe pf s res).upload ≠ none := by
  simp only [allocAndRun]
  split
  · refine ⟨(phase_pres _ _ _ _ _ _).2.2.2.2.2, (phase_full _ _ _ _ _ _ (by rfl)).1, ?_⟩
    rw [(phase_full _ _ _ _ _ _ (by rfl)).2]
    simp
  · refine ⟨(phase_pres _ _ _ _ _ _).2.2.2.2.2, (phase_full _ _ _ _ _ _ (by rfl)).1, ?_⟩
    rw [(phase_full _ _ _ _ _ _ (by rfl)).2]
    simp

/-- C4: with an existing texture of integer pixel capacity `C` and needed
pixel count `N`, `update` reallocates exactly when `N > C` or
`N < 0.25 x C` (the latter is `4N < C` on integers); a reallocation always
triggers a full re-encode of all planes and a full upload, regardless of
the prior dirty state; otherwise the same buffer (same width and height)
is kept. -/
theorem claim4_growth_policy (uf : Bool) (ms : Nat) (oe : Num → Num → Num → Quad)
    (pf : Num → Quad) (s : CState) (tex : Texture) (h : Nat)
    (hst : s.texture = some tex) (hh : tex.height = JSNum.nat h) :
    ((update uf ms oe pf s).realloc = true ↔
      (tex.width * h < pixelCountNeeded uf s.planes.length ∨
       4 * pixelCountNeeded uf s.planes.length < tex.width * h)) ∧
    ((tex.width * h < pixelCountNeeded uf s.planes.length ∨
      4 * pixelCountNeeded uf s.planes.length < tex.width * h) →
      (update uf ms oe pf s).encodeRange = some (0, s.planes.length) ∧
      (update uf ms oe pf s).upload ≠ none) ∧
    (¬(tex.width * h < pixelCountNeeded uf s.planes.length ∨
       4 * pixelCountNeeded uf s.planes.length < tex.width * h) →
      ∃ t', (update uf ms oe pf s).state.texture = some t' ∧
        t'.width = tex.width ∧ t'.height = tex.height) := by
  have hcond : needsRealloc tex (pixelCountNeeded uf s.planes.length) =
      decide (tex.width * h < pixelCountNeeded uf s.planes.length ∨
        4 * pixelCountNeeded uf s.planes.length < tex.width * h) := by
    unfold needsRealloc texCapacity
    rw [hh]
    simp only [jsMulNat, jsLtNumNat, jsLtNatQuarter]
    by_cases h1 : tex.width * h < pixelCountNeeded uf s.planes.length <;>
      by_cases h2 : 4 * pixelCountNeeded uf s.planes.length < tex.width * h <;>
      simp [h1, h2]
  by_cases hp : (tex.width * h < pixelCountNeeded uf s.planes.length ∨
      4 * pixelCountNeeded uf s.planes.length < tex.width * h)
  · have hreal : needsRealloc tex (pixelCountNeeded uf s.planes.length) = true := by
      rw [hcond]
      exact decide_eq_true hp
    rw [update_alloc_of_realloc uf ms oe pf s tex hst hreal]
    have ha := alloc_props uf oe pf s
      (computeTextureResolution (pixelCountNeeded uf s.planes.length) ms)
    exact ⟨by rw [ha.1]; simp [hp], fun _ => ⟨ha.2.1, ha.2.2⟩, fun hc => absurd hp hc⟩
  · have hreal : needsRealloc tex (pixelCountNeeded uf s.planes.length) = false := by
      rw [hcond]
      exact decide_eq_false hp
    rw [update_keep uf ms oe pf s tex hst hreal]
    have hpr := phase_pres uf oe pf s tex false
    have ht := phase_texture uf oe pf s tex false hst
    exact ⟨by rw [hpr.2.2.2.2.2]; simp [hp], fun hc => absurd hc hp, fun _ => ht⟩

/-- A one-plane collection with a 1x1 texture used as a concrete instance
for claim C4 (capacity equals need, so the buffer is kept). -/
def c4Tex : Texture := ⟨1, JSNum.nat 1, fun _ _ => ⟨0, 0, 0, 0⟩⟩

/-- Collection state owning `c4Tex`. -/
def c4State : CState :=
  ⟨[⟨1, 0, 0, 5, 0, true, true⟩], [0], false, -1, false, some c4Tex, fun _ => 0, fun _ => 0, false⟩

/-- C4 witness: the growth policy evaluated on the concrete one-plane
collection whose texture capacity exactly matches the need. -/
theorem claim4_witness :
    (c4State.texture = some c4Tex ∧ c4Tex.height = JSNum.nat 1) ∧
    ((update true 4 octEncZero packFloatZero c4State).realloc = true ↔
      (c4Tex.width * 1 < pixelCountNeeded true c4State.planes.length ∨
       4 * pixelCountNeeded true c4State.planes.length < c4Tex.width * 1)) :=
  ⟨⟨rfl, rfl⟩, (claim4_growth_policy true 4 octEncZero packFloatZero c4State c4Tex 1 rfl rfl).1⟩

/-- C6: adding an untracked plane sets the untracked flag; every operation
(add, remove, removeAll, the dirty tracker, update) preserves the flag
once set; and while the flag is set every `update` call performs a full
re-encode of all planes with a full upload — never a partial or skipped
one — whatever the dirty state. -/
theorem claim6_untracked_degradation :
    (∀ (s : CState) (ref : Nat), (getObj s ref).tracked = false →
      (add s ref).containsUntrackable = true) ∧
    (∀ (s : CState) (ref : Nat), s.containsUntrackable = true →
      (add s ref).containsUntrackable = true ∧
      (remove s ref).1.containsUntrackable = true ∧
      (removeAll s).containsUntrackable = true) ∧
    (∀ (s : CState) (i : Int), s.containsUntrackable = true →
      (setIndexDirty s i).containsUntrackable = true) ∧
    (∀ (uf : Bool) (ms : Nat) (oe : Num → Num → Num → Quad) (pf : Num → Quad) (s : CState),
      s.containsUntrackable = true →
      (update uf ms oe pf s).state.containsUntrackable = true ∧
      (update uf ms oe pf s).encodeRange = some (0, s.planes.length) ∧
      (update uf ms oe pf s).upload ≠ none) := by
  refine ⟨?_, ?_, ?_, ?_⟩
  · intro s ref h
    simp only [add, setIndexDirty]
    rw [if_neg (by simp [h])]
  · intro s ref h
    refine ⟨?_, ?_, ?_⟩
    · simp only [add, setIndexDirty]
      split <;> simp [h]
    · simp only [remove]
      cases hfind : indexOfPlane s (getObj s ref) with
      | none => simpa using h
      | some k => simp [h]
    · simp [removeAll, h]
  · intro s i h
    simp [setIndexDirty, h]
  · intro uf ms oe pf s h
    have main : ∀ (s1 : CState) (tex : Texture) (dr : Bool), s1.containsUntrackable = true →
        s1.planes = s.planes →
        (updateDirtyPhase uf oe pf s1 tex dr).state.containsUntrackable = true ∧
        (updateDirtyPhase uf oe pf s1 tex dr).encodeRange = some (0, s.planes.length) ∧
        (updateDirtyPhase uf oe pf s1 tex dr).upload ≠ none := by
      intro s1 tex dr h1 hpl
      have hf := phase_full uf oe pf s1 tex dr (by simp [h1])
      have hpr := phase_pres uf oe pf s1 tex dr
      exact ⟨by rw [hpr.2.2.1, h1], by rw [hf.1, hpl], by rw [hf.2]; simp⟩
    cases hst : s.texture with
    | none =>
      rw [update_alloc_of_none uf ms oe pf s hst]
      simp only [allocAndRun]
      split
      · exact main _ _ _ (by simp [h]) rfl
      · exact main _ _ _ (by simp [h]) rfl
    | some tex =>
      cases hreal : needsRealloc tex (pixelCountNeeded uf s.planes.length) with
      | true =>
        rw [update_alloc_of_realloc uf ms oe pf s tex hst hreal]
        simp only [allocAndRun]
        split
        · exact main _ _ _ (by simp [h]) rfl
        · exact main _ _ _ (by simp [h]) rfl
      | false =>
        rw [update_keep uf ms oe pf s tex hst hreal]
        exact main s tex false h rfl

/-- A collection that once received an untracked plane (flag set), used as
a concrete instance for claim C6. -/
def c6State : CState :=
  ⟨[⟨1, 0, 0, 5, -1, false, false⟩], [0], true, -1, false, none, fun _ => 0, fun _ => 0, false⟩

/-- C6 witness: on the concrete untracked-flagged collection, `update`
keeps the flag and performs a full re-encode with a full upload. -/
theorem claim6_witness :
    c6State.containsUntrackable = true ∧
    ((update true 16 octEncZero packFloatZero c6State).state.containsUntrackable = true ∧
     (update true 16 octEncZero packFloatZero c6State).encodeRange =
       some (0, c6State.planes.length) ∧
     (update true 16 octEncZero packFloatZero c6State).upload ≠ none) :=
  ⟨rfl, claim6_untracked_degradation.2.2.2 true 16 octEncZero packFloatZero c6State rfl⟩

/-- A collection holding one untracked plane and no texture yet, used as
the concrete refutation instance for claim C9. -/
def c9State : CState :=
  ⟨[⟨1, 0, 0, 5, -1, false, false⟩], [0], true, -1, false, none, fun _ => 0, fun _ => 0, false⟩

/-- C9 counterexample: on a collection containing an untracked plane, the
second of two back-to-back `update` calls with no intervening mutation
still re-encodes the whole plane range and uploads it again, refuting the
claim's quantification over every collection. -/
theorem claim9_counterexample :
    (update true 16 octEncZero packFloatZero
      ((update true 16 octEncZero packFloatZero c9State).state)).encodeRange =
        some (0, 1) ∧
    (update true 16 octEncZero packFloatZero
      ((update true 16 octEncZero packFloatZero c9State).state)).upload ≠ none := by
  constructor
  · decide
  · decide

/-- C9 amended: for every collection that has never received an untracked
plane (and a host maximum width of at least 1), two back-to-back `update`
calls do re-encode and upload work only on the first call — after it the
dirty state is clean, and the second call reallocates nothing, encodes
nothing, uploads nothing and returns the state unchanged. -/
theorem claim9_amended (uf : Bool) (ms : Nat) (oe : Num → Num → Num → Quad)
    (pf : Num → Quad) (s : CState) (hu : s.containsUntrackable = false) (hms : 1 ≤ ms) :
    (update uf ms oe pf s).state.multipleDirty = false ∧
    (update uf ms oe pf s).state.dirtyIndex = -1 ∧
    update uf ms oe pf ((update uf ms oe pf s).state) =
      ⟨(update uf ms oe pf s).state, false, none, none⟩ := by
  obtain ⟨hplanes, hheap, huntr, hmd, hdi, t', htex, hreal⟩ := update_pres uf ms oe pf s hms
  refine ⟨hmd, hdi, ?_⟩
  have hreal' : needsRealloc t'
      (pixelCountNeeded uf ((update uf ms oe pf s).state).planes.length) = false := by
    rw [hplanes]
    exact hreal
  rw [update_keep uf ms oe pf _ t' htex hreal']
  rw [phase_clean uf oe pf _ t' false hmd (by rw [huntr, hu]) hdi]

/-- A clean tracked-plane collection used as a concrete instance for the
amended claim C9. -/
def c9CleanState : CState :=
  ⟨[⟨1, 0, 0, 5, 0, true, true⟩], [0], false, 0, false, none, fun _ => 0, fun _ => 0, false⟩

/-- C9 witness: the amended statement applied to the concrete clean
tracked collection. -/
theorem claim9_witness :
    (c9CleanState.containsUntrackable = false ∧ 1 ≤ 16) ∧
    ((update true 16 octEncZero packFloatZero c9CleanState).state.multipleDirty = false ∧
     (update true 16 octEncZero packFloatZero c9CleanState).state.dirtyIndex = -1 ∧
     update true 16 octEncZero packFloatZero
        ((update true 16 octEncZero packFloatZero c9CleanState).state) =
      ⟨(update true 16 octEncZero packFloatZero c9CleanState).state, false, none, none⟩) :=
  ⟨⟨rfl, by decide⟩, claim9_amended true 16 octEncZero packFloatZero c9CleanState rfl (by decide)⟩

theorem sub_div_mul_eq_mod (i w : Nat) : i - i / w * w = i % w := by
  conv_lhs => rw [Nat.mul_comm]
  have h := Nat.div_add_mod i w
  set a := w * (i / w) with ha
  set b := i % w with hb
  omega

theorem uploadRegion_outside (t : Texture) (v : Nat → Num) (srcW srcH offX offY x y : Nat)
    (h : x < offX ∨ offX + srcW ≤ x ∨ y < offY ∨ offY + srcH ≤ y) :
    (uploadRegion t v srcW srcH offX offY).data x y = t.data x y := by
  simp only [uploadRegion]
  rw [if_neg (by omega)]

/-- C1: on a collection whose dirty state is single at index `i` (not
multiple-dirty, no untracked planes, and the existing texture passes the
keep test so no reallocation forces a full refresh), `update` re-encodes
exactly the sub-range `[i, i+1)` of the plane sequence and uploads exactly
one region — 1 unit wide under the float layout, 2 under the quantized
one, 1 unit tall, at column `i mod width` and row `i div width` of the
buffer — and every buffer pixel outside that region is unchanged. -/
theorem claim1_partial_update (uf : Bool) (ms : Nat) (oe : Num → Num → Num → Quad)
    (pf : Num → Quad) (s : CState) (tex : Texture) (i : Nat)
    (hst : s.texture = some tex)
    (hreal : needsRealloc tex (pixelCountNeeded uf s.planes.length) = false)
    (hmd : s.multipleDirty = false) (hu : s.containsUntrackable = false)
    (hdi : s.dirtyIndex = Int.ofNat i) (_hlen : i < s.planes.length) (_hw : 1 ≤ tex.width) :
    (update uf ms oe pf s).realloc = false ∧
    (update uf ms oe pf s).encodeRange = some (i, i + 1) ∧
    (update uf ms oe pf s).upload =
      some ⟨i % tex.width, i / tex.width, if uf then 1 else 2, JSNum.nat 1⟩ ∧
    ∃ t', (update uf ms oe pf s).state.texture = some t' ∧
      t'.width = tex.width ∧ t'.height = tex.height ∧
      ∀ x y, (x < i % tex.width ∨ i % tex.width + (if uf then 1 else 2) ≤ x ∨
          y ≠ i / tex.width) →
        t'.data x y = tex.data x y := by
  rw [update_keep uf ms oe pf s tex hst hreal]
  cases uf with
  | true =>
    rw [phase_partial_float oe pf s tex false i hmd hu hdi, sub_div_mul_eq_mod]
    refine ⟨rfl, rfl, rfl, _, rfl, rfl, rfl, ?_⟩
    intro x y hxy
    refine uploadRegion_outside tex _ _ _ _ _ x y ?_
    rcases hxy with h | h | h
    · exact Or.inl h
    · exact Or.inr (Or.inl h)
    · rcases Nat.lt_or_ge y (i / tex.width) with h2 | h2
      · exact Or.inr (Or.inr (Or.inl h2))
      · refine Or.inr (Or.inr (Or.inr ?_))
        generalize i / tex.width = q at h h2 ⊢
        omega
  | false =>
    rw [phase_partial_uint8 oe pf s tex false i hmd hu hdi, sub_div_mul_eq_mod]
    refine ⟨rfl, rfl, rfl, _, rfl, rfl, rfl, ?_⟩
    intro x y hxy
    refine uploadRegion_outside tex _ _ _ _ _ x y ?_
    rcases hxy with h | h | h
    · exact Or.inl h
    · exact Or.inr (Or.inl h)
    · rcases Nat.lt_or_ge y (i / tex.width) with h2 | h2
      · exact Or.inr (Or.inr (Or.inl h2))
      · refine Or.inr (Or.inr (Or.inr ?_))
        generalize i / tex.width = q at h h2 ⊢
        omega

/-- A 2x1 texture whose pixels hold the sentinel value 9, used as a
concrete instance for claim C1. -/
def c1Tex : Texture := ⟨2, JSNum.nat 1, fun _ _ => ⟨9, 9, 9, 9⟩⟩

/-- A one-plane collection with single-dirty index 0 owning `c1Tex`. -/
def c1State : CState :=
  ⟨[⟨1, 0, 0, 5, 0, true, true⟩], [0], false, 0, false, some c1Tex, fun _ => 0, fun _ => 0, false⟩

/-- C1 witness: the partial-update statement applied to the concrete
single-dirty collection under the float layout. -/
theorem claim1_witness :
    (c1State.texture = some c1Tex ∧
     needsRealloc c1Tex (pixelCountNeeded true c1State.planes.length) = false ∧
     c1State.multipleDirty = false ∧ c1State.containsUntrackable = false ∧
     c1State.dirtyIndex = Int.ofNat 0 ∧ 0 < c1State.planes.length ∧ 1 ≤ c1Tex.width) ∧
    ((update true 4 octEncZero packFloatZero c1State).realloc = false ∧
     (update true 4 octEncZero packFloatZero c1State).encodeRange = some (0, 0 + 1) ∧
     (update true 4 octEncZero packFloatZero c1State).upload =
       some ⟨0 % c1Tex.width, 0 / c1Tex.width, if true then 1 else 2, JSNum.nat 1⟩ ∧
     ∃ t', (update true 4 octEncZero packFloatZero c1State).state.texture = some t' ∧
       t'.width = c1Tex.width ∧ t'.height = c1Tex.height ∧
       ∀ x y, (x < 0 % c1Tex.width ∨ 0 % c1Tex.width + (if true then 1 else 2) ≤ x ∨
           y ≠ 0 / c1Tex.width) →
         t'.data x y = c1Tex.data x y) :=
  ⟨⟨rfl, by decide, rfl, rfl, rfl, by decide, by decide⟩,
   claim1_partial_update true 4 octEncZero packFloatZero c1State c1Tex 0 rfl (by decide)
     rfl rfl rfl (by decide) (by decide)⟩

theorem findIdxLtLength {α : Type} (p : α → Bool) :
    ∀ (l : List α) (i k : Nat), List.findIdx? p l i = some k → i ≤ k ∧ k < i + l.length := by
  intro l
  induction l with
  | nil =>
    intro i k h
    rw [List.findIdx?_nil] at h
    cases h
  | cons x xs ih =>
    intro i k h
    rw [List.findIdx?_cons] at h
    split at h
    · injection h with h
      refine ⟨by omega, ?_⟩
      simp only [List.length_cons]
      omega
    · have h2 := ih (i + 1) k h
      refine ⟨by omega, ?_⟩
      simp only [List.length_cons]
      omega

theorem remove_found (s : CState) (ref k : Nat)
    (hfind : indexOfPlane s (getObj s ref) = some k) :
    remove s ref = (
      { s with
          heap := (removeShiftLoop
            (if (getObj s ref).tracked then
              s.heap.set ref { getObj s ref with hasCallback := false, index := -1 }
             else s.heap)
            s.planes k (s.planes.length - 1 - k)).1,
          planes := (removeShiftLoop
            (if (getObj s ref).tracked then
              s.heap.set ref { getObj s ref with hasCallback := false, index := -1 }
             else s.heap)
            s.planes k (s.planes.length - 1 - k)).2.take (s.planes.length - 1),
          multipleDirty := true }, true) := by
  simp only [remove]
  rw [hfind]

/-- The state refuting claim C3: the heap holds a tracked member (ref 0,
at position 0, callback installed, index 0) and a distinct tracked object
(ref 1) with equal normal and distance that is not a member. -/
def c3State : CState :=
  ⟨[⟨1, 0, 0, 5, 0, true, true⟩, ⟨1, 0, 0, 5, -1, false, true⟩],
   [0], false, -1, false, none, fun _ => 0, fun _ => 0, false⟩

/-- C3 counterexample: removing, by value, a tracked plane object that is
value-equal to the sole member but is a different object succeeds and
removes the member from the sequence, yet the found member keeps its
callback and its index 0 — the code clears the argument, not the found
member — refuting "detaches the first such found member (clearing that
found plane's index and callback if tracked)". -/
theorem claim3_counterexample :
    (remove c3State 1).2 = true ∧
    (remove c3State 1).1.planes = [] ∧
    (getObj (remove c3State 1).1 0).hasCallback = true ∧
    (getObj (remove c3State 1).1 0).index = 0 := by
  refine ⟨?_, ?_, ?_, ?_⟩ <;> decide

/-- C3 amended: `remove(p)` scans for the first member value-equal to `p`;
if there is none it returns false and changes nothing.  If one exists at
position `k` (stated here for collections whose reference list has no
duplicates and whose references are live), `remove` returns true, deletes
position `k` from the sequence (shifting all subsequent planes down one
position), renumbers every shifted tracked plane to its new position, sets
the dirty state to multiple (leaving the recorded dirty index untouched),
and detaches the ARGUMENT object `p` when `p` is tracked: `p`'s callback
is cleared, and `p`'s index is reset to the sentinel -1 provided `p` does
not itself survive among the shifted planes; the found member's own index
and callback are cleared only when it is the argument itself. -/
theorem claim3_amended :
    (∀ (s : CState) (ref : Nat), indexOfPlane s (getObj s ref) = none →
      remove s ref = (s, false)) ∧
    (∀ (s : CState) (ref k : Nat),
      indexOfPlane s (getObj s ref) = some k →
      s.planes.Nodup →
      (∀ r ∈ s.planes, r < s.heap.length) →
      ref < s.heap.length →
      (remove s ref).2 = true ∧
      (remove s ref).1.planes = s.planes.take k ++ s.planes.drop (k + 1) ∧
      (remove s ref).1.multipleDirty = true ∧
      (remove s ref).1.dirtyIndex = s.dirtyIndex ∧
      ((getObj s ref).tracked = true → (getObj (remove s ref).1 ref).hasCallback = false) ∧
      ((getObj s ref).tracked = true → ref ∉ s.planes.drop (k + 1) →
        (getObj (remove s ref).1 ref).index = -1) ∧
      (∀ j, k ≤ j → j + 1 < s.planes.length →
        (getObj s (s.planes.getD (j + 1) 0)).tracked = true →
        (getObj (remove s ref).1 (s.planes.getD (j + 1) 0)).index = Int.ofNat j)) := by
  constructor
  · intro s ref hfind
    simp only [remove]
    rw [hfind]
  · intro s ref k hfind hnodup hrefs href
    have hklen : k < s.planes.length := by
      have := findIdxLtLength _ s.planes 0 k hfind
      omega
    rw [remove_found s ref k hfind]
    set heap1 := (if (getObj s ref).tracked = true then
        s.heap.set ref { getObj s ref with hasCallback := false, index := -1 }
      else s.heap) with hh1
    have hlen1 : heap1.length = s.heap.length := by
      rw [hh1]
      split <;> simp
    have htr1 : ∀ r', (getObj s r').tracked = true →
        (heap1.getD r' defaultObj).tracked = true := by
      intro r' htr
      rw [hh1]
      split
      · rw [listGetDSet]
        split
        · rename_i hc
          rw [hc.1]
          exact htr
        · exact htr
      · exact htr
    refine ⟨rfl, ?_, rfl, rfl, ?_, ?_, ?_⟩
    · have hplen : (removeShiftLoop heap1 s.planes k (s.planes.length - 1 - k)).2.length =
          s.planes.length := removeShiftLoop_planes_length _ _ _ _
      refine listExtGetD 0 _ _ ?_ ?_
      · rw [List.length_take, hplen, List.length_append, List.length_take, List.length_drop]
        omega
      · intro j hj
        rw [List.length_take, hplen] at hj
        have hj1 : j < s.planes.length - 1 := by omega
        rw [listGetDTake _ _ _ _ hj1,
          removeShiftLoop_planes_getD _ _ _ _ (by omega) j, listGetDAppend, List.length_take]
        by_cases hjk : j < k
        · rw [if_neg (by omega), if_pos (by omega), listGetDTake _ _ _ _ hjk]
        · rw [if_pos (by omega), if_neg (by omega), listGetDDrop]
          congr 1
          omega
    · intro htr
      simp only [getObj]
      rw [(removeShiftLoop_heap_fields _ _ _ _ _).1, hh1, if_pos htr, listGetDSet,
        if_pos ⟨rfl, href⟩]
    · intro htr hnotin
      simp only [getObj]
      rw [removeShiftLoop_heap_untouched _ heap1 s.planes k ref ?side]
      case side =>
        intro j hj1 hj2
        have hmem : s.planes.getD (j + 1) 0 ∈ s.planes.drop (k + 1) := by
          have heq : s.planes.getD (j + 1) 0 = (s.planes.drop (k + 1)).getD (j - k) 0 := by
            rw [listGetDDrop]
            congr 1
            omega
          rw [heq]
          apply listGetDMem
          rw [List.length_drop]
          omega
        intro hc
        rw [hc] at hmem
        exact hnotin hmem
      rw [hh1, if_pos htr, listGetDSet, if_pos ⟨rfl, href⟩]
    · intro j hjk hjlen htr
      simp only [getObj]
      have hrlt : s.planes.getD (j + 1) 0 < heap1.length := by
        rw [hlen1]
        exact hrefs _ (listGetDMem 0 s.planes (j + 1) (by omega))
      have hdist : ∀ j', k ≤ j' → j' < k + (s.planes.length - 1 - k) → j' ≠ j →
          s.planes.getD (j' + 1) 0 ≠ s.planes.getD (j + 1) 0 := by
        intro j' h1 h2 h3
        exact listNodupGetDNe 0 s.planes hnodup (j' + 1) (j + 1) (by omega) (by omega) (by omega)
      rw [removeShiftLoop_heap_written _ _ _ _ _ hjk (by omega) (by omega) hrlt hdist,
        if_pos (htr1 _ htr)]

/-- A three-plane tracked collection used as a concrete instance for the
amended claim C3: removing the middle plane by identity. -/
def c3WState : CState :=
  ⟨[⟨1, 0, 0, 1, 0, true, true⟩, ⟨2, 0, 0, 2, 1, true, true⟩, ⟨3, 0, 0, 3, 2, true, true⟩],
   [0, 1, 2], false, -1, false, none, fun _ => 0, fun _ => 0, false⟩

/-- C3 witness: the amended statement applied to removing the middle plane
(found at position 1) of the concrete three-plane collection. -/
theorem claim3_witness :
    (indexOfPlane c3WState (getObj c3WState 1) = some 1 ∧ c3WState.planes.Nodup ∧
     (∀ r ∈ c3WState.planes, r < c3WState.heap.length) ∧ 1 < c3WState.heap.length) ∧
    ((remove c3WState 1).2 = true ∧
     (remove c3WState 1).1.planes = c3WState.planes.take 1 ++ c3WState.planes.drop 2 ∧
     (remove c3WState 1).1.multipleDirty = true ∧
     (remove c3WState 1).1.dirtyIndex = c3WState.dirtyIndex ∧
     ((getObj c3WState 1).tracked = true → (getObj (remove c3WState 1).1 1).hasCallback = false) ∧
     ((getObj c3WState 1).tracked = true → 1 ∉ c3WState.planes.drop 2 →
       (getObj (remove c3WState 1).1 1).index = -1) ∧
     (∀ j, 1 ≤ j → j + 1 < c3WState.planes.length →
       (getObj c3WState (c3WState.planes.getD (j + 1) 0)).tracked = true →
       (getObj (remove c3WState 1).1 (c3WState.planes.getD (j + 1) 0)).index = Int.ofNat j)) :=
  ⟨⟨by decide, by decide, by decide, by decide⟩,
   claim3_amended.2 c3WState 1 1 (by decide) (by decide) (by decide) (by decide)⟩

end Cesium
